import Mathlib

set_option maxRecDepth 100000
set_option maxHeartbeats 2000000

/-!
Verification of the lunchdrop-monitor repository against its specification.

The development shallowly embeds the change-detection core of
src/monitor_lunchdrop.py: the JSON payload extractor
(detect_availability_and_deliveries), the fingerprint computation
(content_hash over json.dumps of the sorted restaurant-name list), the
snapshot store (save_state / load_state keyed by the md5 of the page URL),
the weekday window construction, and the normal-mode orchestration loop of
main (per-date check, diff against stored state, persist, notify).

Machine integers do not occur in the source (Python has unbounded ints);
the 32-bit arithmetic below exists only to embed the sha256 and md5
digests executably, with explicit reduction modulo 2 ^ 32.
-/

namespace Lunchdrop

/-! ### 32-bit helpers and byte-level encoding -/

def m32 : Nat := 4294967296

def rotr32 (n x : Nat) : Nat := ((x >>> n) + ((x <<< (32 - n)) % m32)) % m32

def rotl32 (n x : Nat) : Nat := (((x <<< n) % m32) + (x >>> (32 - n))) % m32

-- UTF-8 encoding of one character, as python str.encode("utf-8") produces.
def utf8Char (c : Char) : List Nat :=
  let n := c.toNat
  if n < 128 then [n]
  else if n < 2048 then [192 + n / 64, 128 + n % 64]
  else if n < 65536 then [224 + n / 4096, 128 + (n / 64) % 64, 128 + n % 64]
  else [240 + n / 262144, 128 + (n / 4096) % 64, 128 + (n / 64) % 64, 128 + n % 64]

def strBytes (s : String) : List Nat := (s.data.map utf8Char).flatten

def beBytes (k : Nat) (n : Nat) : List Nat :=
  match k with
  | 0 => []
  | k + 1 => beBytes k (n / 256) ++ [n % 256]

def leBytes (k : Nat) (n : Nat) : List Nat :=
  match k with
  | 0 => []
  | k + 1 => n % 256 :: leBytes k (n / 256)

def chunks64 : Nat → List Nat → List (List Nat)
  | 0, _ => []
  | _, [] => []
  | fuel + 1, l => l.take 64 :: chunks64 fuel (l.drop 64)

def hexDigit (n : Nat) : Char := Char.ofNat (if n < 10 then 48 + n else 87 + n)

/-! ### sha256 (used by content_hash) -/

def padMsg (msg : List Nat) : List Nat :=
  let l := msg.length
  let z := (119 - (l % 64)) % 64
  msg ++ [128] ++ List.replicate z 0 ++ beBytes 8 (8 * l)

def words32 : List Nat → List Nat
  | a :: b :: c :: d :: rest => (((a * 256 + b) * 256 + c) * 256 + d) :: words32 rest
  | _ => []

def ssig0 (x : Nat) : Nat := (rotr32 7 x) ^^^ (rotr32 18 x) ^^^ (x >>> 3)

def ssig1 (x : Nat) : Nat := (rotr32 17 x) ^^^ (rotr32 19 x) ^^^ (x >>> 10)

def bsig0 (x : Nat) : Nat := (rotr32 2 x) ^^^ (rotr32 13 x) ^^^ (rotr32 22 x)

def bsig1 (x : Nat) : Nat := (rotr32 6 x) ^^^ (rotr32 11 x) ^^^ (rotr32 25 x)

-- The message schedule, kept in reverse order (most recent word first).
def extendW : Nat → List Nat → List Nat
  | 0, ws => ws
  | n + 1, ws =>
    let w := (ws.getD 15 0 + ssig0 (ws.getD 14 0) + ws.getD 6 0 + ssig1 (ws.getD 1 0)) % m32
    extendW n (w :: ws)

-- The 64 round constants of the sha256 compression, in decimal.
def sha256K : List Nat :=
  [1116352408, 1899447441, 3049323471, 3921009573, 961987163, 1508970993,
   2453635748, 2870763221, 3624381080, 310598401, 607225278, 1426881987,
   1925078388, 2162078206, 2614888103, 3248222580, 3835390401, 4022224774,
   264347078, 604807628, 770255983, 1249150122, 1555081692, 1996064986,
   2554220882, 2821834349, 2952996808, 3210313671, 3336571891, 3584528711,
   113926993, 338241895, 666307205, 773529912, 1294757372, 1396182291,
   1695183700, 1986661051, 2177026350, 2456956037, 2730485921, 2820302411,
   3259730800, 3345764771, 3516065817, 3600352804, 4094571909, 275423344,
   430227734, 506948616, 659060556, 883997877, 958139571, 1322822218,
   1537002063, 1747873779, 1955562222, 2024104815, 2227730452, 2361852424,
   2428436474, 2756734187, 3204031479, 3329325298]

structure H8 where
  a : Nat
  b : Nat
  c : Nat
  d : Nat
  e : Nat
  f : Nat
  g : Nat
  h : Nat

def sha256Round (st : H8) (kw : Nat × Nat) : H8 :=
  let ch := (st.e &&& st.f) ^^^ ((m32 - 1 - st.e) &&& st.g)
  let t1 := (st.h + bsig1 st.e + ch + kw.1 + kw.2) % m32
  let maj := (st.a &&& st.b) ^^^ (st.a &&& st.c) ^^^ (st.b &&& st.c)
  let t2 := (bsig0 st.a + maj) % m32
  ⟨(t1 + t2) % m32, st.a, st.b, st.c, (st.d + t1) % m32, st.e, st.f, st.g⟩

def sha256Chunk (st : H8) (chunk : List Nat) : H8 :=
  let w := (extendW 48 (words32 chunk).reverse).reverse
  let r := (sha256K.zip w).foldl (fun s kw => sha256Round s kw) st
  ⟨(st.a + r.a) % m32, (st.b + r.b) % m32, (st.c + r.c) % m32, (st.d + r.d) % m32,
   (st.e + r.e) % m32, (st.f + r.f) % m32, (st.g + r.g) % m32, (st.h + r.h) % m32⟩

def hex8 (w : Nat) : List Char :=
  [hexDigit ((w / 0x10000000) % 16), hexDigit ((w / 0x1000000) % 16),
   hexDigit ((w / 0x100000) % 16), hexDigit ((w / 0x10000) % 16),
   hexDigit ((w / 0x1000) % 16), hexDigit ((w / 0x100) % 16),
   hexDigit ((w / 0x10) % 16), hexDigit (w % 16)]

def sha256hexBytes (msg : List Nat) : String :=
  let p := padMsg msg
  let st := (chunks64 p.length p).foldl sha256Chunk
    ⟨1779033703, 3144134277, 1013904242, 2773480762, 1359893119, 2600822924, 528734635, 1541459225⟩
  String.mk (hex8 st.a ++ hex8 st.b ++ hex8 st.c ++ hex8 st.d ++
             hex8 st.e ++ hex8 st.f ++ hex8 st.g ++ hex8 st.h)

-- monitor_lunchdrop.py line 94: sha256 hexdigest of the utf-8 encoded content.
def content_hash (content : String) : String := sha256hexBytes (strBytes content)

/-! ### md5 (used by state_path_for) -/

def md5Pad (msg : List Nat) : List Nat :=
  let l := msg.length
  let z := (119 - (l % 64)) % 64
  msg ++ [128] ++ List.replicate z 0 ++ leBytes 8 (8 * l)

def leWords : List Nat → List Nat
  | a :: b :: c :: d :: rest => (((d * 256 + c) * 256 + b) * 256 + a) :: leWords rest
  | _ => []

-- The 64 md5 sine-derived constants, in decimal.
def md5K : List Nat :=
  [3614090360, 3905402710, 606105819, 3250441966, 4118548399, 1200080426,
   2821735955, 4249261313, 1770035416, 2336552879, 4294925233, 2304563134,
   1804603682, 4254626195, 2792965006, 1236535329, 4129170786, 3225465664,
   643717713, 3921069994, 3593408605, 38016083, 3634488961, 3889429448,
   568446438, 3275163606, 4107603335, 1163531501, 2850285829, 4243563512,
   1735328473, 2368359562, 4294588738, 2272392833, 1839030562, 4259657740,
   2763975236, 1272893353, 4139469664, 3200236656, 681279174, 3936430074,
   3572445317, 76029189, 3654602809, 3873151461, 530742520, 3299628645,
   4096336452, 1126891415, 2878612391, 4237533241, 1700485571, 2399980690,
   4293915773, 2240044497, 1873313359, 4264355552, 2734768916, 1309151649,
   4149444226, 3174756917, 718787259, 3951481745]

def md5S : List Nat :=
  [7, 12, 17, 22, 7, 12, 17, 22, 7, 12, 17, 22, 7, 12, 17, 22,
   5, 9, 14, 20, 5, 9, 14, 20, 5, 9, 14, 20, 5, 9, 14, 20,
   4, 11, 16, 23, 4, 11, 16, 23, 4, 11, 16, 23, 4, 11, 16, 23,
   6, 10, 15, 21, 6, 10, 15, 21, 6, 10, 15, 21, 6, 10, 15, 21]

def notW (x : Nat) : Nat := 4294967295 - x

structure H4 where
  a : Nat
  b : Nat
  c : Nat
  d : Nat

def md5Op (m : List Nat) (st : H4) (i : Nat) : H4 :=
  let fg : Nat × Nat :=
    if i < 16 then ((st.b &&& st.c) ||| (notW st.b &&& st.d), i)
    else if i < 32 then ((st.d &&& st.b) ||| (notW st.d &&& st.c), (5 * i + 1) % 16)
    else if i < 48 then (st.b ^^^ st.c ^^^ st.d, (3 * i + 5) % 16)
    else (st.c ^^^ (st.b ||| notW st.d), (7 * i) % 16)
  let f := (fg.1 + st.a + md5K.getD i 0 + m.getD fg.2 0) % m32
  ⟨st.d, (st.b + rotl32 (md5S.getD i 0) f) % m32, st.b, st.c⟩

def md5Chunk (st : H4) (chunk : List Nat) : H4 :=
  let m := leWords chunk
  let r := (List.range 64).foldl (md5Op m) st
  ⟨(st.a + r.a) % m32, (st.b + r.b) % m32, (st.c + r.c) % m32, (st.d + r.d) % m32⟩

def hexLE (w : Nat) : List Char :=
  (leBytes 4 w).flatMap (fun b => [hexDigit (b / 16), hexDigit (b % 16)])

def md5hex (s : String) : String :=
  let p := md5Pad (strBytes s)
  let st := (chunks64 p.length p).foldl md5Chunk ⟨1732584193, 4023233417, 2562383102, 271733878⟩
  String.mk (hexLE st.a ++ hexLE st.b ++ hexLE st.c ++ hexLE st.d)

/-! ### JSON values and the fragment of python semantics the source exercises

JSON numbers are modelled as integers; the payloads the monitor reads carry
booleans, strings and object/array structure, and no claim depends on
floating-point values. -/

inductive JVal where
  | jnull
  | jbool (b : Bool)
  | jint (n : Int)
  | jstr (s : String)
  | jarr (xs : List JVal)
  | jobj (fs : List (String × JVal))

-- python truthiness of a json-derived value.
def truthy : JVal → Bool
  | .jnull => false
  | .jbool b => b
  | .jint n => n != 0
  | .jstr s => s.length != 0
  | .jarr xs => !xs.isEmpty
  | .jobj fs => !fs.isEmpty

-- dict.get(k): json.loads produces dicts with unique keys, so first match.
def dictGet (fs : List (String × JVal)) (k : String) : Option JVal :=
  (fs.find? (fun p => p.1 == k)).map (fun p => p.2)

-- x.get(...) on a non-dict raises AttributeError; modelled as an error.
def getDict : JVal → Except Unit (List (String × JVal))
  | .jobj fs => .ok fs
  | _ => .error ()

-- Iterating a truthy non-list in the delivery comprehension raises
-- (TypeError on a non-iterable, AttributeError on the .get of a str or of
-- a dict key); all such cases are exceptions, modelled as an error.
def asArr : JVal → Except Unit (List JVal)
  | .jarr xs => .ok xs
  | _ => .error ()

-- Code-point comparison of strings, as python compares str values.
def strLtB : List Char → List Char → Bool
  | [], [] => false
  | [], _ :: _ => true
  | _ :: _, [] => false
  | a :: as, b :: bs =>
    if a.toNat < b.toNat then true
    else if b.toNat < a.toNat then false
    else strLtB as bs

def numVal : JVal → Option Int
  | .jint n => some n
  | .jbool b => some (if b then 1 else 0)
  | _ => none

-- python value comparison x < y for the values that can appear as
-- restaurant names: numbers (bool counts as int) and strings compare,
-- any other pair raises TypeError.  A list-valued name, which python
-- would compare lexicographically, is not modelled: no claim reaches it.
def pyLt (a b : JVal) : Except Unit Bool :=
  match numVal a, numVal b with
  | some x, some y => .ok (x < y)
  | _, _ =>
    match a, b with
    | .jstr x, .jstr y => .ok (strLtB x.data y.data)
    | _, _ => .error ()

-- sorted() inserts after equal elements, preserving stability.
def pyInsert (x : JVal) : List JVal → Except Unit (List JVal)
  | [] => .ok [x]
  | y :: ys => do
    if (← pyLt x y) then .ok (x :: y :: ys)
    else
      let r ← pyInsert x ys
      .ok (y :: r)

def pySorted (l : List JVal) : Except Unit (List JVal) :=
  l.foldlM (fun acc x => pyInsert x acc) []

/-! ### json.dumps with the default ensure_ascii=True and sort_keys=True -/

def hex4 (n : Nat) : List Char :=
  [hexDigit ((n / 4096) % 16), hexDigit ((n / 256) % 16), hexDigit ((n / 16) % 16), hexDigit (n % 16)]

-- Escaping of one character as json.dumps(..., ensure_ascii=True) writes it.
def escChar (c : Char) : List Char :=
  if c = '"' then ['\\', '"']
  else if c = '\\' then ['\\', '\\']
  else if c = Char.ofNat 8 then ['\\', 'b']
  else if c = Char.ofNat 9 then ['\\', 't']
  else if c = Char.ofNat 10 then ['\\', 'n']
  else if c = Char.ofNat 12 then ['\\', 'f']
  else if c = Char.ofNat 13 then ['\\', 'r']
  else if 32 ≤ c.toNat && c.toNat ≤ 126 then [c]
  else if c.toNat < 65536 then '\\' :: 'u' :: hex4 c.toNat
  else
    let v := c.toNat - 65536
    ('\\' :: 'u' :: hex4 (55296 + v / 1024)) ++ ('\\' :: 'u' :: hex4 (56320 + v % 1024))

def dumpStr (s : String) : String := String.mk ('"' :: (s.data.map escChar).flatten ++ ['"'])

def insertEntry (x : String × String) : List (String × String) → List (String × String)
  | [] => [x]
  | y :: ys => if strLtB x.1.data y.1.data then x :: y :: ys else y :: insertEntry x ys

-- sort_keys=True orders the object entries by their key string.
def sortEntries (es : List (String × String)) : List (String × String) :=
  es.foldl (fun acc x => insertEntry x acc) []

def joinEntries (es : List (String × String)) : String :=
  String.intercalate ", " (es.map (fun e => e.2))

mutual

def pyDumps : JVal → String
  | .jnull => "null"
  | .jbool true => "true"
  | .jbool false => "false"
  | .jint n => toString n
  | .jstr s => dumpStr s
  | .jarr xs => "[" ++ pyDumpsArr xs ++ "]"
  | .jobj fs => "\x7b" ++ joinEntries (sortEntries (pyDumpsEntries fs)) ++ "\x7d"

def pyDumpsArr : List JVal → String
  | [] => ""
  | [x] => pyDumps x
  | x :: y :: xs => pyDumps x ++ ", " ++ pyDumpsArr (y :: xs)

def pyDumpsEntries : List (String × JVal) → List (String × String)
  | [] => []
  | (k, v) :: fs => (k, dumpStr k ++ ": " ++ pyDumps v) :: pyDumpsEntries fs

end

/-! ### The extractor: detect_availability_and_deliveries -/

structure ItemInfo where
  name : JVal
  url : JVal

structure Snapshot where
  available : Bool
  items : List ItemInfo
  digest : String

-- The default result returned on an empty attribute and from the except
-- branch: False, [], content_hash("").
def emptySnap : Snapshot := ⟨false, [], content_hash ""⟩

-- d.get("isOpen") in (1, True): membership by python equality, and both
-- members equal the number one.
def pyIsOne : JVal → Bool
  | .jint 1 => true
  | .jbool true => true
  | _ => false

def isOpenCheck : Option JVal → Bool
  | some v => pyIsOne v
  | none => false

-- The eligibility condition of the delivery comprehension (line 266).
def eligible (d : List (String × JVal)) : Bool :=
  isOpenCheck (dictGet d "isOpen") &&
  !truthy ((dictGet d "isCancelled").getD .jnull) &&
  truthy ((dictGet d "userCanOrder").getD (.jbool true))

-- One pass of the info loop (lines 271-276): name and url extraction with
-- the or-fallbacks, keeping the entry only when the name is truthy.
def infoOf (d : List (String × JVal)) : Except Unit (Option ItemInfo) := do
  let rn := (dictGet d "restaurantName").getD .jnull
  let name ← if truthy rn then pure rn else do
    let rest := (dictGet d "restaurant").getD .jnull
    let restObj := if truthy rest then rest else JVal.jobj []
    let f ← getDict restObj
    pure ((dictGet f "name").getD (.jstr ""))
  let u1 := (dictGet d "url").getD .jnull
  let u2 := (dictGet d "link").getD .jnull
  let url := if truthy u1 then u1 else if truthy u2 then u2 else JVal.jstr ""
  pure (if truthy name then some ⟨name, url⟩ else none)

-- The digest expression of line 278: sha256 of json.dumps(sorted(names)).
def digestOfNames (names : List JVal) : Except Unit String := do
  let s ← pySorted names
  pure (content_hash (pyDumps (.jarr s)))

-- The body of the try block of detect_availability_and_deliveries applied
-- to an already parsed payload (lines 260-279).
def detectBody (data : JVal) : Except Unit Snapshot := do
  let dataF ← getDict data
  let props ← getDict ((dictGet dataF "props").getD (.jobj []))
  let lunchDay ← getDict ((dictGet props "lunchDay").getD (.jobj []))
  let deliveriesA := (dictGet lunchDay "deliveries").getD .jnull
  let deliveryV := (dictGet props "delivery").getD .jnull
  let deliveriesVal :=
    if truthy deliveriesA then deliveriesA
    else if truthy deliveryV then JVal.jarr [deliveryV]
    else JVal.jarr []
  let ds ← asArr deliveriesVal
  let dsF ← ds.mapM getDict
  let openDs := dsF.filter eligible
  let infos ← openDs.mapM infoOf
  let items := infos.reduceOption
  let digest ← digestOfNames (items.map (fun it => it.name))
  pure ⟨!openDs.isEmpty, items, digest⟩

-- The data-page attribute of the #app element as the extractor sees it:
-- missing or empty (the falsy early return), a string json.loads rejects,
-- or a string parsing to a json value.
inductive AttrVal where
  | absent
  | malformed
  | payload (j : JVal)

-- A loaded page, as the abstracted browser exposes it to the extractor:
-- the #app[data-page] payload (none when the selector never appears and
-- the wait raises), the rendered main text and the count of configured
-- call-to-action matches.  The source extractor reads only appPayload;
-- the other two fields exist for the strategies the spec describes.
structure Page where
  appPayload : Option AttrVal
  mainText : String
  ctaCount : Nat

-- The try block of detect_availability_and_deliveries (lines 253-279):
-- a missing selector and an unparseable attribute raise inside the try,
-- an empty attribute returns the default through the early return.
def detectCore (p : Page) : Except Unit Snapshot :=
  match p.appPayload with
  | none => .error ()
  | some .absent => .ok emptySnap
  | some .malformed => .error ()
  | some (.payload data) => detectBody data

-- The whole extractor (lines 245-282): the except branch turns any
-- exception into the default snapshot.
def detect_availability_and_deliveries (p : Page) : Snapshot :=
  match detectCore p with
  | .ok s => s
  | .error _ => emptySnap

/-! ### Snapshot store: url_for, state_path_for, save_state, load_state -/

-- python date.fromordinal (proleptic Gregorian, ordinal 1 = 0001-01-01),
-- returning (year, month, day).
def civilFromOrdinal (o : Nat) : Nat × Nat × Nat :=
  let z := o + 305
  let era := z / 146097
  let doe := z % 146097
  let yoe := (doe - doe / 1460 + doe / 36524 - doe / 146096) / 365
  let y0 := yoe + era * 400
  let doy := doe - (365 * yoe + yoe / 4 - yoe / 100)
  let mp := (5 * doy + 2) / 153
  let day := doy - (153 * mp + 2) / 5 + 1
  let m := if mp < 10 then mp + 3 else mp - 9
  (if m ≤ 2 then y0 + 1 else y0, m, day)

def padNum (w n : Nat) : String :=
  let s := toString n
  String.mk (List.replicate (w - s.length) '0') ++ s

-- date.isoformat() of the date with the given ordinal.
def isoformat (o : Nat) : String :=
  let c := civilFromOrdinal o
  padNum 4 c.1 ++ "-" ++ padNum 2 c.2.1 ++ "-" ++ padNum 2 c.2.2

-- url_for (line 97): BASE_URL/<iso date>.
def url_for (baseURL : String) (d : Nat) : String := baseURL ++ "/" ++ isoformat d

-- state_path_for (line 100): md5 hexdigest of the url, dot json, inside
-- the constant STATE_DIR (the constant directory component is dropped).
def state_path_for (url : String) : String := md5hex url ++ ".json"

-- The state directory as the single sequential process sees it: the
-- parsed json content per file path.  save_state writes json that
-- json.loads reads back identically, so files hold JVal directly; a file
-- whose parse would fail is modelled as absent, which is how load_state
-- treats it (its except branch returns None).
def Store : Type := String → Option JVal

def save_state (fs : Store) (url : String) (data : JVal) : Store :=
  fun p => if p = state_path_for url then some data else fs p

def load_state (fs : Store) (url : String) : Option JVal := fs (state_path_for url)

/-! ### The weekday window (main, lines 327-332) -/

-- date.weekday(): Monday is 0; ordinal 1 is a Monday.
def pyWeekday (o : Nat) : Nat := (o + 6) % 7

def weekdaysWindow (today n : Nat) : List Nat :=
  ((List.range n).map (fun i => today + (i + 1))).filter (fun d => pyWeekday d < 5)

/-! ### The orchestrator: check_date_with_auth and the normal mode of main -/

structure Config where
  baseURL : String
  lookaheadDays : Nat
  sendHeartbeat : Bool

-- Outcome of loading one date page: page.goto or the load-state waits
-- raise a playwright timeout, raise some other exception, or deliver a
-- loaded page.
inductive PageLoad where
  | timeoutErr
  | loadErr (e : String)
  | loaded (p : Page)

-- The run environment: configuration, the ordinal of date.today(),
-- whether ensure_logged_in_and_save_state succeeds, whether a posted
-- Slack notification succeeds (notify_slack raises on failure), and the
-- page each date url serves.
structure RunEnv where
  cfg : Config
  today : Nat
  authOk : Bool
  notifyOk : Bool
  pageFor : Nat → PageLoad

inductive DateResult where
  | failure (msg : String)
  | success (available : Bool) (digest : String) (names : List JVal) (items : List ItemInfo)

-- check_date_with_auth (lines 285-323): every exception of the body is
-- caught and turned into an error record; a successful load runs the
-- extractor (which never raises) and reports its fields.  The artifact
-- saving on unavailability is best-effort io with its own except and does
-- not affect the result.
def checkDate (env : RunEnv) (d : Nat) : DateResult :=
  let url := url_for env.cfg.baseURL d
  match env.pageFor d with
  | .timeoutErr => .failure ("Timeout loading " ++ url)
  | .loadErr e => .failure ("Error loading " ++ url ++ ": " ++ e)
  | .loaded pg =>
    let s := detect_availability_and_deliveries pg
    .success s.available s.digest (s.items.map (fun it => it.name)) s.items

-- The json object save_state writes for a successful check (lines 409-414).
def itemJson (it : ItemInfo) : JVal := .jobj [("name", it.name), ("url", it.url)]

def snapJson (avail : Bool) (digest : String) (names : List JVal) (items : List ItemInfo) : JVal :=
  .jobj [("available", .jbool avail), ("digest", .jstr digest),
         ("names", .jarr names), ("deliveries", .jarr (items.map itemJson))]

-- prev.get("available") in (None, False): python membership by equality;
-- a missing key and a stored json null both read as None, and False also
-- equals the number zero.
def inNoneOrFalse : Option JVal → Bool
  | none => true
  | some .jnull => true
  | some (.jbool false) => true
  | some (.jint 0) => true
  | some _ => false

-- python equality of a json value against a str (the new digest).
def pyEqStr : JVal → String → Bool
  | .jstr t, s => t == s
  | _, _ => false

-- became_available (line 423).
def became_available (prevAvailable : Option JVal) (nowAvailable : Bool) : Bool :=
  inNoneOrFalse prevAvailable && nowAvailable

-- changed (line 424): prev_digest and prev_digest != snap_now["digest"],
-- read in boolean position: prev_digest truthy and not equal to the new
-- digest (a non-string stored digest is never equal to a str).
def changed_check (prevDigest : Option JVal) (nowDigest : String) : Bool :=
  match prevDigest with
  | none => false
  | some v => truthy v && !(pyEqStr v nowDigest)

-- set(x) succeeds when x is iterable with hashable elements: a str (its
-- characters) or a dict (its str keys) always works, a list needs
-- non-container elements, anything else raises TypeError.
def pySetOk : JVal → Bool
  | .jarr xs => xs.all (fun v => match v with | .jarr _ => false | .jobj _ => false | _ => true)
  | .jstr _ => true
  | .jobj _ => true
  | _ => false

structure LoopState where
  store : Store
  checked : List Nat
  newly : List (Nat × List JVal)
  errors : List String
  crashed : Bool

-- prev = load_state(url) or \x7b\x7d (line 415): a missing file and a
-- falsy loaded value both read as the empty dict.
def prevValOf (e : Option JVal) : JVal :=
  match e with
  | some v => if truthy v then v else .jobj []
  | none => .jobj []

-- One iteration of the normal-mode loop (lines 401-429).  An error record
-- is collected and the loop continues.  On success the previous state is
-- loaded, the two name sets are built (an uncaught TypeError or
-- AttributeError there crashes the run, as does prev.get on a non-dict
-- file), the new snapshot is saved unconditionally, and the date is
-- flagged when became_available or available-and-changed.
def processDate (env : RunEnv) (st : LoopState) (d : Nat) : LoopState :=
  if st.crashed then st
  else
    match checkDate env d with
    | .failure msg =>
      { st with checked := st.checked ++ [d], errors := st.errors ++ [msg] }
    | .success avail digest names items =>
      let url := url_for env.cfg.baseURL d
      match getDict (prevValOf (load_state st.store url)) with
      | .error _ => { st with checked := st.checked ++ [d], crashed := true }
      | .ok prevF =>
        if !(pySetOk ((dictGet prevF "names").getD (.jarr [])) && pySetOk (.jarr names)) then
          { st with checked := st.checked ++ [d], crashed := true }
        else
          { store := save_state st.store url (snapJson avail digest names items),
            checked := st.checked ++ [d],
            newly := if became_available (dictGet prevF "available") avail ||
                        (avail && changed_check (dictGet prevF "digest") digest)
                     then st.newly ++ [(d, names)] else st.newly,
            errors := st.errors,
            crashed := false }

-- What main sends to Slack, abstracted to its content.
inductive Notification where
  | loginFailed
  | alerts (dates : List (Nat × List JVal))
  | heartbeat

structure RunResult where
  store : Store
  checked : List Nat
  newly : List (Nat × List JVal)
  errors : List String
  notifications : List Notification
  crashed : Bool

-- The normal (change) mode of main (lines 326-463, SUMMARY_ONLY false).
-- The weekday window is built first and an empty window returns before
-- authentication.  A login failure is caught once: one Slack message is
-- attempted and main returns (a failure of that post propagates).  The
-- per-date loop then runs to completion unless an uncaught exception
-- crashes it, after which the alert post or the optional heartbeat is
-- attempted; notify_slack raises on delivery failure and nothing catches
-- it there.
def mainNormalMode (env : RunEnv) (store0 : Store) : RunResult :=
  let weekdays := weekdaysWindow env.today env.cfg.lookaheadDays
  if weekdays.isEmpty then ⟨store0, [], [], [], [], false⟩
  else if !env.authOk then ⟨store0, [], [], [], [.loginFailed], !env.notifyOk⟩
  else
    let fin := weekdays.foldl (processDate env) ⟨store0, [], [], [], false⟩
    if fin.crashed then ⟨fin.store, fin.checked, fin.newly, fin.errors, [], true⟩
    else if !fin.newly.isEmpty then
      ⟨fin.store, fin.checked, fin.newly, fin.errors, [.alerts fin.newly], !env.notifyOk⟩
    else if env.cfg.sendHeartbeat then
      ⟨fin.store, fin.checked, fin.newly, fin.errors, [.heartbeat], !env.notifyOk⟩
    else ⟨fin.store, fin.checked, fin.newly, fin.errors, [], false⟩

/-! ### Derived views of one loop step, used by the run theorems -/

-- The state file path a date writes to.
def pathOf (env : RunEnv) (d : Nat) : String :=
  state_path_for (url_for env.cfg.baseURL d)

def errMsgOf : DateResult → Option String
  | .failure m => some m
  | .success _ _ _ _ => none

-- What a date persists: nothing on failure, its snapshot on success.
def stepSave : DateResult → Option JVal
  | .failure _ => none
  | .success a dg ns its => some (snapJson a dg ns its)

def storeAfter (e : Option JVal) (r : DateResult) : Option JVal :=
  match stepSave r with
  | some j => some j
  | none => e

-- The alert entry a date contributes, given the stored file content e the
-- loop sees for it.
def stepNewly (e : Option JVal) (d : Nat) : DateResult → Option (Nat × List JVal)
  | .failure _ => none
  | .success avail digest names _ =>
    match getDict (prevValOf e) with
    | .error _ => none
    | .ok prevF =>
      if became_available (dictGet prevF "available") avail ||
         (avail && changed_check (dictGet prevF "digest") digest)
      then some (d, names) else none

-- A loop step completes without an uncaught exception exactly when the
-- stored file reads as a dict and both name sets are constructible.
def stepBenign (e : Option JVal) : DateResult → Bool
  | .failure _ => true
  | .success _ _ names _ =>
    match getDict (prevValOf e) with
    | .error _ => false
    | .ok prevF => pySetOk ((dictGet prevF "names").getD (.jarr [])) && pySetOk (.jarr names)

-- A stored state in the shape save_state writes: absent, or the snapshot
-- object of some earlier successful check.
def storedOf : Option (Bool × String × List JVal × List ItemInfo) → Option JVal
  | none => none
  | some (a, dg, ns, its) => some (snapJson a dg ns its)

/-! ### String sorting at the List String level, mirroring pySorted -/

def insertStr (x : String) : List String → List String
  | [] => [x]
  | y :: ys => if strLtB x.data y.data then x :: y :: ys else y :: insertStr x ys

def sortStrings (l : List String) : List String :=
  l.foldl (fun acc x => insertStr x acc) []

-- The relation the sort leaves its output ordered by.
def strLeS (a b : String) : Prop := strLtB b.data a.data = false

/-! ### The serialized form of an all-string name list, character level -/

def encChars (s : String) : List Char := '"' :: s.data ++ ['"']

def charsOfNames : List String → List Char
  | [] => []
  | [s] => encChars s
  | s :: t :: r => encChars s ++ ',' :: ' ' :: charsOfNames (t :: r)

-- Characters that json.dumps with ensure_ascii writes through unescaped:
-- printable ascii other than the quote and the backslash.  Restaurant
-- names are of this shape.
def cleanChar (c : Char) : Prop :=
  32 ≤ c.toNat ∧ c.toNat ≤ 126 ∧ c ≠ '"' ∧ c ≠ '\\'

def cleanStr (s : String) : Prop := ∀ c ∈ s.data, cleanChar c

def cleanList (l : List String) : Prop := ∀ s ∈ l, cleanStr s

/-! ### The strategy chain as the spec describes it

The following definitions follow the words of spec section 4.2, not the
source, and exist to compare the specified extractor with the implemented
one (claim C2): a structured-payload strategy, then an explicit-message
strategy over the main text, then a selector-count strategy.  The
explicit-message strategy always yields a signal, so the chain never
reaches the third strategy. -/

def pyIsSpace (c : Char) : Bool :=
  c = ' ' || c = Char.ofNat 9 || c = Char.ofNat 10 || c = Char.ofNat 11 ||
  c = Char.ofNat 12 || c = Char.ofNat 13

def dedupeSpaces : List Char → List Char
  | [] => []
  | [c] => [c]
  | a :: b :: cs =>
    if a = ' ' && b = ' ' then dedupeSpaces (b :: cs) else a :: dedupeSpaces (b :: cs)

-- Case-folded, whitespace-normalized text, per the spec words for the
-- explicit-message strategy.
def specNormalize (s : String) : List Char :=
  dedupeSpaces ((s.data.map (fun c => if pyIsSpace c then ' ' else Char.toLower c)))

def startsWithChars : List Char → List Char → Bool
  | [], _ => true
  | _ :: _, [] => false
  | p :: ps, c :: cs => p == c && startsWithChars ps cs

def hasSubChars : List Char → List Char → Bool
  | pat, [] => pat.isEmpty
  | pat, c :: cs => startsWithChars pat (c :: cs) || hasSubChars pat cs

-- Strategy 2 of the spec: availability is false exactly when the
-- configured no-items phrase occurs in the normalized main content.
def specMessageAvail (phrase : String) (p : Page) : Bool :=
  !(hasSubChars (specNormalize phrase) (specNormalize p.mainText))

-- Strategy 3 of the spec: selector/call-to-action count meets the
-- configured threshold.
def specSelectorAvail (threshold : Nat) (p : Page) : Bool :=
  threshold ≤ p.ctaCount

-- The chain of spec section 4.2: first strategy that yields a signal
-- wins; a failing payload strategy degrades to no signal and falls
-- through to the explicit-message strategy.
def specAvailabilityChain (phrase : String) (p : Page) : Bool :=
  match p.appPayload with
  | some (.payload j) =>
    match detectBody j with
    | .ok s => s.available
    | .error _ => specMessageAvail phrase p
  | _ => specMessageAvail phrase p

/-! ### Claim theorems -/

/-- Claim C3: the snapshot extractor never raises for any input page: every
internal failure of the try block (missing payload element, unparseable
json, attribute or structure error) is contained by the except branch and
the extractor returns the default snapshot, with available false and an
empty item list, instead of propagating the exception. -/
theorem c3_extractor_never_raises (p : Page) (e : Unit)
    (h : detectCore p = .error e) :
    detect_availability_and_deliveries p = emptySnap ∧
    (detect_availability_and_deliveries p).available = false ∧
    (detect_availability_and_deliveries p).items = [] := by
  have hd : detect_availability_and_deliveries p = emptySnap := by
    unfold detect_availability_and_deliveries
    rw [h]
  exact ⟨hd, by rw [hd]; rfl, by rw [hd]; rfl⟩

/-- Claim C3 witness: a page whose data-page attribute is a string that
json.loads rejects. -/
theorem c3_extractor_never_raises_witness :
    detect_availability_and_deliveries ⟨some .malformed, "", 0⟩ = emptySnap ∧
    (detect_availability_and_deliveries ⟨some .malformed, "", 0⟩).available = false ∧
    (detect_availability_and_deliveries ⟨some .malformed, "", 0⟩).items = [] :=
  c3_extractor_never_raises ⟨some .malformed, "", 0⟩ () rfl

/-- Claim C2 counterexample: the source extractor has no explicit-message
strategy.  On a page with no structured payload whose main text does not
contain the configured no-items phrase, the chain the spec describes
reports available, while the implemented extractor reports unavailable. -/
theorem c2_strategy_chain_cex :
    specAvailabilityChain "there are no lunches scheduled yet"
      ⟨some .absent, "Pick your lunch now", 0⟩ = true ∧
    (detect_availability_and_deliveries
      ⟨some .absent, "Pick your lunch now", 0⟩).available = false := by
  exact ⟨by decide, rfl⟩

/-- Claim C2 amended: the extractor implements only the structured-payload
strategy.  When the payload is missing, empty or unparseable it returns
the default unavailable snapshot with no items, and its result never
depends on the rendered text or on selector counts. -/
theorem c2_payload_only_strategy :
    (∀ p : Page,
      p.appPayload = none ∨ p.appPayload = some .absent ∨ p.appPayload = some .malformed →
      detect_availability_and_deliveries p = emptySnap) ∧
    (∀ p q : Page, p.appPayload = q.appPayload →
      detect_availability_and_deliveries p = detect_availability_and_deliveries q) := by
  constructor
  · intro p h
    unfold detect_availability_and_deliveries detectCore
    rcases h with h | h | h <;> rw [h]
  · intro p q h
    unfold detect_availability_and_deliveries detectCore
    rw [h]

/-- Claim C2 amended witness: a payload-free page evaluates to the default
snapshot, and a page differing only in rendered text extracts equally. -/
theorem c2_payload_only_strategy_witness :
    detect_availability_and_deliveries ⟨some .absent, "Pick your lunch now", 0⟩ = emptySnap ∧
    detect_availability_and_deliveries ⟨none, "menus", 3⟩ =
      detect_availability_and_deliveries ⟨none, "", 0⟩ :=
  ⟨c2_payload_only_strategy.1 ⟨some .absent, "Pick your lunch now", 0⟩ (Or.inr (Or.inl rfl)),
   c2_payload_only_strategy.2 ⟨none, "menus", 3⟩ ⟨none, "", 0⟩ rfl⟩

/-- Claim C4: for every lookahead length and every starting day, the window
holds exactly the dates from tomorrow through the lookahead horizon whose
weekday is Monday through Friday, in increasing order. -/
theorem c4_weekday_window (today n : Nat) :
    (∀ d, d ∈ weekdaysWindow today n ↔
      (today + 1 ≤ d ∧ d ≤ today + n ∧ pyWeekday d < 5)) ∧
    (weekdaysWindow today n).Sorted (· < ·) := by
  constructor
  · intro d
    simp only [weekdaysWindow, List.mem_filter, List.mem_map, List.mem_range,
      decide_eq_true_eq]
    constructor
    · rintro ⟨⟨i, hi, rfl⟩, hw⟩
      exact ⟨by omega, by omega, hw⟩
    · rintro ⟨h1, h2, h3⟩
      exact ⟨⟨d - (today + 1), by omega, by omega⟩, h3⟩
  · have h1 : ((List.range n).map (fun i => today + (i + 1))).Pairwise (· < ·) :=
      (List.pairwise_lt_range n).map _ (fun a b h => by omega)
    exact List.Pairwise.sublist (List.filter_sublist _) h1

/-- Claim C8: saving a snapshot and loading the same key returns the saved
object unchanged — its available flag, fingerprint and name list are those
of the snapshot — and the save overwrites whatever the store held at that
key before, unconditionally. -/
theorem c8_store_roundtrip (fs : Store) (url : String) (avail : Bool)
    (digest : String) (names : List JVal) (items : List ItemInfo) :
    load_state (save_state fs url (snapJson avail digest names items)) url =
      some (snapJson avail digest names items) ∧
    getDict (prevValOf (load_state (save_state fs url (snapJson avail digest names items)) url)) =
      .ok [("available", .jbool avail), ("digest", .jstr digest),
           ("names", .jarr names), ("deliveries", .jarr (items.map itemJson))] ∧
    dictGet [("available", JVal.jbool avail), ("digest", JVal.jstr digest),
             ("names", JVal.jarr names), ("deliveries", JVal.jarr (items.map itemJson))]
      "available" = some (.jbool avail) ∧
    dictGet [("available", JVal.jbool avail), ("digest", JVal.jstr digest),
             ("names", JVal.jarr names), ("deliveries", JVal.jarr (items.map itemJson))]
      "digest" = some (.jstr digest) ∧
    dictGet [("available", JVal.jbool avail), ("digest", JVal.jstr digest),
             ("names", JVal.jarr names), ("deliveries", JVal.jarr (items.map itemJson))]
      "names" = some (.jarr names) ∧
    save_state fs url (snapJson avail digest names items) (state_path_for url) =
      some (snapJson avail digest names items) := by
  refine ⟨?_, ?_, rfl, rfl, rfl, ?_⟩
  · simp [load_state, save_state]
  · simp [load_state, save_state]
    rfl
  · simp [save_state]

theorem truthyOfNeEmpty {s : String} (h : s ≠ "") : truthy (.jstr s) = true := by
  cases s with
  | mk data =>
    cases data with
    | nil => exact absurd rfl h
    | cons c cs => rfl

/-- Claim C1: in change mode a checked date is flagged — its entry added to
the list the alert notification is built from — exactly when its stored
state was absent or unavailable and the new snapshot is available, or both
are available and the fingerprints differ; an unavailable new snapshot, or
an unchanged fingerprint while available, adds no entry.  The stored state
is one save_state wrote, so its fingerprint is a nonempty hexdigest. -/
theorem c1_diff_policy (env : RunEnv) (st : LoopState) (d : Nat)
    (prevOpt : Option (Bool × String × List JVal × List ItemInfo))
    (avail : Bool) (digest : String) (names : List JVal) (items : List ItemInfo)
    (hc : st.crashed = false)
    (hr : checkDate env d = .success avail digest names items)
    (hload : load_state st.store (url_for env.cfg.baseURL d) = storedOf prevOpt)
    (hnames : pySetOk (.jarr names) = true)
    (hprev : ∀ a0 d0 ns0 its0, prevOpt = some (a0, d0, ns0, its0) →
      pySetOk (.jarr ns0) = true ∧ d0 ≠ "") :
    (processDate env st d).newly =
      if prevOpt.elim avail
           (fun q => (!q.1 && avail) || (q.1 && avail && !(q.2.1 == digest)))
      then st.newly ++ [(d, names)] else st.newly := by
  match prevOpt, hprev with
  | none, _ =>
    simp only [storedOf] at hload
    have h0 : pySetOk (JVal.jarr []) = true := rfl
    simp only [processDate, hc, hr, hload, Option.elim]
    have h2 : getDict (prevValOf none) = .ok [] := rfl
    simp only [h2]
    simp only [show dictGet ([] : List (String × JVal)) "names" = none from rfl,
      show dictGet ([] : List (String × JVal)) "available" = none from rfl,
      show dictGet ([] : List (String × JVal)) "digest" = none from rfl,
      Option.getD, h0, hnames]
    simp [became_available, changed_check, inNoneOrFalse]
  | some (a0, d0, ns0, its0), hp =>
    obtain ⟨hset, hne⟩ := hp a0 d0 ns0 its0 rfl
    simp only [storedOf] at hload
    simp only [processDate, hc, hr, hload, Option.elim]
    have h2 : getDict (prevValOf (some (snapJson a0 d0 ns0 its0))) =
        .ok [("available", .jbool a0), ("digest", .jstr d0),
             ("names", .jarr ns0), ("deliveries", .jarr (its0.map itemJson))] := rfl
    simp only [h2]
    simp only [show ∀ v1 v2 v3 v4,
        dictGet [("available", v1), ("digest", v2), ("names", v3), ("deliveries", v4)]
          "names" = some v3 from fun _ _ _ _ => rfl,
      show ∀ v1 v2 v3 v4,
        dictGet [("available", v1), ("digest", v2), ("names", v3), ("deliveries", v4)]
          "available" = some v1 from fun _ _ _ _ => rfl,
      show ∀ v1 v2 v3 v4,
        dictGet [("available", v1), ("digest", v2), ("names", v3), ("deliveries", v4)]
          "digest" = some v2 from fun _ _ _ _ => rfl,
      Option.getD, hset, hnames]
    simp only [changed_check, truthyOfNeEmpty hne, pyEqStr, became_available, inNoneOrFalse]
    cases a0 <;> cases avail <;> simp

/-- Claim C1 witness: a first-time date whose page carries one open named
delivery is flagged and contributes its alert entry. -/
theorem c1_diff_policy_witness :
    (processDate
      ⟨⟨"https://austin.lunchdrop.com/app", 5, false⟩, 739536, true, true,
        fun _ => .loaded ⟨some (.payload (.jobj [("props", .jobj [("lunchDay", .jobj
          [("deliveries", .jarr [.jobj [("isOpen", .jbool true),
            ("restaurantName", .jstr "Taco Joint")]])])])])), "", 0⟩⟩
      ⟨fun _ => none, [], [], [], false⟩ 739537).newly =
    [(739537, [JVal.jstr "Taco Joint"])] := by
  have h := c1_diff_policy
    ⟨⟨"https://austin.lunchdrop.com/app", 5, false⟩, 739536, true, true,
      fun _ => .loaded ⟨some (.payload (.jobj [("props", .jobj [("lunchDay", .jobj
        [("deliveries", .jarr [.jobj [("isOpen", .jbool true),
          ("restaurantName", .jstr "Taco Joint")]])])])])), "", 0⟩⟩
    ⟨fun _ => none, [], [], [], false⟩ 739537 none true
    (content_hash "[\"Taco Joint\"]") [JVal.jstr "Taco Joint"]
    [⟨JVal.jstr "Taco Joint", JVal.jstr ""⟩] rfl rfl rfl rfl
    (fun a0 d0 ns0 its0 hx => by cases hx)
  exact h.trans rfl

/-! ### Order lemmas for the code-point string comparison -/

theorem charEqOfToNat {a b : Char} (h : a.toNat = b.toNat) : a = b :=
  Char.ext (UInt32.ext h)

theorem strLtB_asymm : ∀ as bs, strLtB as bs = true → strLtB bs as = false := by
  intro as
  induction as with
  | nil =>
    intro bs h
    cases bs with
    | nil => simp [strLtB] at h
    | cons b bs => simp [strLtB]
  | cons a as ih =>
    intro bs h
    cases bs with
    | nil => simp [strLtB] at h
    | cons b bs =>
      simp only [strLtB] at h ⊢
      by_cases h1 : a.toNat < b.toNat
      · have h2 : ¬ b.toNat < a.toNat := by omega
        simp [h1, h2]
      · by_cases h2 : b.toNat < a.toNat
        · simp [h1, h2] at h
        · simp only [if_neg h1, if_neg h2] at h ⊢
          exact ih bs h

theorem strLtB_trans :
    ∀ as bs cs, strLtB as bs = true → strLtB bs cs = true → strLtB as cs = true := by
  intro as
  induction as with
  | nil =>
    intro bs cs h1 h2
    cases bs with
    | nil => simp [strLtB] at h1
    | cons b bs =>
      cases cs with
      | nil => simp [strLtB] at h2
      | cons c cs => simp [strLtB]
  | cons a as ih =>
    intro bs cs h1 h2
    cases bs with
    | nil => simp [strLtB] at h1
    | cons b bs =>
      cases cs with
      | nil => simp [strLtB] at h2
      | cons c cs =>
        simp only [strLtB] at h1 h2 ⊢
        by_cases hab : a.toNat < b.toNat <;> by_cases hbc : b.toNat < c.toNat
        · simp [show a.toNat < c.toNat by omega]
        · have hcb : ¬ c.toNat < b.toNat := by
            by_contra hc
            simp [hbc, hc] at h2
          simp [show a.toNat < c.toNat by omega]
        · have hba : ¬ b.toNat < a.toNat := by
            by_contra hc
            simp [hab, hc] at h1
          simp [show a.toNat < c.toNat by omega]
        · have hba : ¬ b.toNat < a.toNat := by
            by_contra hc
            simp [hab, hc] at h1
          have hcb : ¬ c.toNat < b.toNat := by
            by_contra hc
            simp [hbc, hc] at h2
          have hac : ¬ a.toNat < c.toNat := by omega
          have hca : ¬ c.toNat < a.toNat := by omega
          simp only [if_neg hab, if_neg hba] at h1
          simp only [if_neg hbc, if_neg hcb] at h2
          simp only [if_neg hac, if_neg hca]
          exact ih bs cs h1 h2

theorem strLtB_antisymm :
    ∀ as bs, strLtB as bs = false → strLtB bs as = false → as = bs := by
  intro as
  induction as with
  | nil =>
    intro bs h1 _
    cases bs with
    | nil => rfl
    | cons b bs => simp [strLtB] at h1
  | cons a as ih =>
    intro bs h1 h2
    cases bs with
    | nil => simp [strLtB] at h2
    | cons b bs =>
      simp only [strLtB] at h1 h2
      by_cases hab : a.toNat < b.toNat
      · simp [hab] at h1
      · by_cases hba : b.toNat < a.toNat
        · simp [hba, hab] at h2
        · have hc : a = b := charEqOfToNat (Nat.le_antisymm (Nat.le_of_not_lt hba) (Nat.le_of_not_lt hab))
          simp only [if_neg hab, if_neg hba] at h1
          simp only [if_neg hba, if_neg hab] at h2
          exact hc ▸ congrArg (a :: ·) (ih bs h1 h2)

theorem strLeS_antisymm (a b : String) (h1 : strLeS a b) (h2 : strLeS b a) : a = b := by
  cases a with
  | mk d1 =>
    cases b with
    | mk d2 => exact congrArg String.mk (strLtB_antisymm d1 d2 h2 h1)

/-! ### The insertion sort at the string level and its properties -/

theorem insertStr_perm (x : String) : ∀ l, List.Perm (insertStr x l) (x :: l) := by
  intro l
  induction l with
  | nil => exact List.Perm.refl _
  | cons y ys ih =>
    simp only [insertStr]
    cases hxy : strLtB x.data y.data with
    | true => simp
    | false =>
      simp only [Bool.false_eq_true, if_false]
      exact (ih.cons y).trans (List.Perm.swap x y ys)

theorem insertStr_sorted (x : String) :
    ∀ l, l.Sorted strLeS → (insertStr x l).Sorted strLeS := by
  intro l
  induction l with
  | nil => intro _; simp [insertStr, strLeS]
  | cons y ys ih =>
    intro hs
    rw [List.sorted_cons] at hs
    obtain ⟨hy, hys⟩ := hs
    simp only [insertStr]
    cases hxy : strLtB x.data y.data with
    | true =>
      simp only [if_true]
      rw [List.sorted_cons]
      refine ⟨?_, List.sorted_cons.mpr ⟨hy, hys⟩⟩
      intro b hb
      rcases List.mem_cons.mp hb with rfl | hb
      · exact strLtB_asymm _ _ hxy
      · cases hbx : strLtB b.data x.data with
        | false => exact hbx
        | true =>
          have hby : strLtB b.data y.data = true := strLtB_trans _ _ _ hbx hxy
          have := hy b hb
          rw [strLeS, hby] at this
          cases this
    | false =>
      simp only [Bool.false_eq_true, if_false]
      rw [List.sorted_cons]
      refine ⟨?_, ih hys⟩
      intro b hb
      have hb2 := (insertStr_perm x ys).mem_iff.mp hb
      rcases List.mem_cons.mp hb2 with rfl | hb3
      · exact hxy
      · exact hy b hb3

theorem sortAux_perm :
    ∀ (l acc : List String), List.Perm (l.foldl (fun a x => insertStr x a) acc) (acc ++ l) := by
  intro l
  induction l with
  | nil => intro acc; simp
  | cons x xs ih =>
    intro acc
    simp only [List.foldl_cons]
    refine (ih (insertStr x acc)).trans ?_
    refine (((insertStr_perm x acc).append_right xs)).trans ?_
    exact (List.perm_middle).symm

theorem sortAux_sorted :
    ∀ (l acc : List String), acc.Sorted strLeS →
      (l.foldl (fun a x => insertStr x a) acc).Sorted strLeS := by
  intro l
  induction l with
  | nil => intro acc h; simpa using h
  | cons x xs ih =>
    intro acc h
    simp only [List.foldl_cons]
    exact ih (insertStr x acc) (insertStr_sorted x acc h)

theorem sortStrings_perm (l : List String) : List.Perm (sortStrings l) l := by
  simpa [sortStrings] using sortAux_perm l []

theorem sortStrings_sorted (l : List String) : (sortStrings l).Sorted strLeS :=
  sortAux_sorted l [] (by simp)

theorem sortStrings_eq_of_perm {l₁ l₂ : List String} (h : List.Perm l₁ l₂) :
    sortStrings l₁ = sortStrings l₂ := by
  haveI : IsAntisymm String strLeS := ⟨strLeS_antisymm⟩
  exact List.eq_of_perm_of_sorted
    ((sortStrings_perm l₁).trans (h.trans (sortStrings_perm l₂).symm))
    (sortStrings_sorted l₁) (sortStrings_sorted l₂)

/-! ### Bridging pySorted on all-string inputs to the string-level sort -/

theorem pyInsert_jstr (x : String) : ∀ l : List String,
    pyInsert (.jstr x) (l.map .jstr) = .ok ((insertStr x l).map .jstr) := by
  intro l
  induction l with
  | nil => rfl
  | cons y ys ih =>
    simp only [List.map_cons, pyInsert, insertStr]
    cases hxy : strLtB x.data y.data with
    | true =>
      simp [pyLt, numVal, hxy, Bind.bind, Except.bind]
    | false =>
      simp [pyLt, numVal, hxy, Bind.bind, Except.bind, ih]

theorem pySorted_jstr (l : List String) :
    pySorted (l.map .jstr) = .ok ((sortStrings l).map .jstr) := by
  suffices h : ∀ (l acc : List String),
      List.foldlM (fun a x => pyInsert x a) (acc.map JVal.jstr) (l.map JVal.jstr) =
        .ok ((l.foldl (fun a x => insertStr x a) acc).map .jstr) by
    simpa [pySorted, sortStrings] using h l []
  intro l
  induction l with
  | nil => intro acc; rfl
  | cons x xs ih =>
    intro acc
    simp only [List.map_cons, List.foldlM_cons, List.foldl_cons]
    rw [pyInsert_jstr]
    simpa [Bind.bind, Except.bind] using ih (insertStr x acc)

theorem digestOfNames_strings (ns : List String) :
    digestOfNames (ns.map .jstr) =
      .ok (content_hash (pyDumps (.jarr ((sortStrings ns).map .jstr)))) := by
  simp [digestOfNames, pySorted_jstr, Bind.bind, Except.bind, pure, Except.pure]

/-! ### The serialized name list determines the names (clean ascii case) -/

theorem stringMkAppend (a b : List Char) : String.mk a ++ String.mk b = String.mk (a ++ b) := rfl

theorem escChar_clean {c : Char} (h : cleanChar c) : escChar c = [c] := by
  obtain ⟨h1, h2, h3, h4⟩ := h
  have e8 : c ≠ Char.ofNat 8 := by intro he; rw [he] at h1; exact absurd h1 (by decide)
  have e9 : c ≠ Char.ofNat 9 := by intro he; rw [he] at h1; exact absurd h1 (by decide)
  have e10 : c ≠ Char.ofNat 10 := by intro he; rw [he] at h1; exact absurd h1 (by decide)
  have e12 : c ≠ Char.ofNat 12 := by intro he; rw [he] at h1; exact absurd h1 (by decide)
  have e13 : c ≠ Char.ofNat 13 := by intro he; rw [he] at h1; exact absurd h1 (by decide)
  unfold escChar
  rw [if_neg h3, if_neg h4, if_neg e8, if_neg e9, if_neg e10, if_neg e12, if_neg e13, if_pos]
  simp [h1, h2]

theorem flatten_escChar {l : List Char} (h : ∀ c ∈ l, cleanChar c) :
    (l.map escChar).flatten = l := by
  induction l with
  | nil => rfl
  | cons c cs ih =>
    simp only [List.map_cons, List.flatten_cons]
    rw [escChar_clean (h c (by simp)), ih (fun d hd => h d (by simp [hd]))]
    rfl

theorem dumpStr_clean {s : String} (h : cleanStr s) :
    dumpStr s = String.mk (encChars s) := by
  simp only [dumpStr, encChars]
  rw [flatten_escChar h]

theorem pyDumpsArr_names :
    ∀ (l : List String), cleanList l →
      pyDumpsArr (l.map .jstr) = String.mk (charsOfNames l) := by
  intro l
  induction l with
  | nil => intro _; rfl
  | cons s rest ih =>
    intro hc
    cases rest with
    | nil =>
      simp only [List.map_cons, List.map_nil, pyDumpsArr, pyDumps, charsOfNames]
      exact dumpStr_clean (hc s (by simp))
    | cons t r =>
      simp only [List.map_cons, pyDumpsArr, pyDumps, charsOfNames]
      have ihh := ih (fun u hu => hc u (by simp [hu]))
      rw [List.map_cons] at ihh
      rw [dumpStr_clean (hc s (by simp)), ihh]
      rw [show (", " : String) = String.mk [',', ' '] from rfl,
        stringMkAppend, stringMkAppend]
      exact congrArg String.mk (by simp [encChars, List.append_assoc])

theorem pyDumps_names {l : List String} (h : cleanList l) :
    pyDumps (.jarr (l.map .jstr)) = String.mk ('[' :: charsOfNames l ++ [']']) := by
  show ("[" : String) ++ pyDumpsArr (l.map .jstr) ++ "]" = _
  rw [pyDumpsArr_names l h,
    show ("[" : String) = String.mk ['['] from rfl,
    show ("]" : String) = String.mk [']'] from rfl,
    stringMkAppend, stringMkAppend]
  exact congrArg String.mk (by simp)

theorem quoteSplit :
    ∀ (l₁ l₂ r₁ r₂ : List Char), (∀ c ∈ l₁, c ≠ '"') → (∀ c ∈ l₂, c ≠ '"') →
      l₁ ++ '"' :: r₁ = l₂ ++ '"' :: r₂ → l₁ = l₂ ∧ r₁ = r₂ := by
  intro l₁
  induction l₁ with
  | nil =>
    intro l₂ r₁ r₂ _ h2 he
    cases l₂ with
    | nil => simpa using he
    | cons c cs =>
      simp only [List.nil_append, List.cons_append] at he
      injection he with hx _
      exact absurd hx.symm (h2 c (by simp))
  | cons a as ih =>
    intro l₂ r₁ r₂ h1 h2 he
    cases l₂ with
    | nil =>
      simp only [List.cons_append, List.nil_append] at he
      injection he with hx _
      exact absurd hx (h1 a (by simp))
    | cons b bs =>
      simp only [List.cons_append] at he
      injection he with hx hy
      subst hx
      obtain ⟨hl, hr⟩ :=
        ih bs r₁ r₂ (fun c hc => h1 c (by simp [hc])) (fun c hc => h2 c (by simp [hc])) hy
      exact ⟨by rw [hl], hr⟩

def namesTail : List String → List Char
  | [] => [']']
  | t :: r => ',' :: ' ' :: (charsOfNames (t :: r) ++ [']'])

theorem charsOfNames_cons (s : String) (rest : List String) :
    charsOfNames (s :: rest) ++ [']'] = '"' :: (s.data ++ '"' :: namesTail rest) := by
  cases rest with
  | nil => simp [charsOfNames, encChars, namesTail]
  | cons t r => simp [charsOfNames, encChars, namesTail, List.append_assoc]

theorem charsOfNames_inj :
    ∀ (l₁ l₂ : List String), cleanList l₁ → cleanList l₂ →
      charsOfNames l₁ ++ [']'] = charsOfNames l₂ ++ [']'] → l₁ = l₂ := by
  intro l₁
  induction l₁ with
  | nil =>
    intro l₂ _ h2 he
    cases l₂ with
    | nil => rfl
    | cons s rest =>
      rw [charsOfNames_cons] at he
      simp only [charsOfNames, List.nil_append] at he
      injection he with hx _
      exact absurd hx (by decide)
  | cons s rest ih =>
    intro l₂ h1 h2 he
    cases l₂ with
    | nil =>
      rw [charsOfNames_cons] at he
      simp only [charsOfNames, List.nil_append] at he
      injection he with hx _
      exact absurd hx (by decide)
    | cons t rest₂ =>
      rw [charsOfNames_cons, charsOfNames_cons] at he
      injection he with _ hy
      have hclean1 : ∀ c ∈ s.data, c ≠ '"' := fun c hc => ((h1 s (by simp)) c hc).2.2.1
      have hclean2 : ∀ c ∈ t.data, c ≠ '"' := fun c hc => ((h2 t (by simp)) c hc).2.2.1
      obtain ⟨hd, ht⟩ := quoteSplit s.data t.data _ _ hclean1 hclean2 hy
      have hst : s = t := by
        cases s with
        | mk d1 =>
          cases t with
          | mk d2 => exact congrArg String.mk hd
      subst hst
      cases rest with
      | nil =>
        cases rest₂ with
        | nil => rfl
        | cons u v =>
          simp only [namesTail] at ht
          injection ht with hx _
          exact absurd hx (by decide)
      | cons u v =>
        cases rest₂ with
        | nil =>
          simp only [namesTail] at ht
          injection ht with hx _
          exact absurd hx (by decide)
        | cons w z =>
          simp only [namesTail] at ht
          injection ht with _ ht2
          injection ht2 with _ ht3
          exact congrArg (s :: ·)
            (ih (w :: z) (fun u hu => h1 u (by simp [hu])) (fun u hu => h2 u (by simp [hu])) ht3)

theorem pyDumps_names_inj {l₁ l₂ : List String} (h1 : cleanList l₁) (h2 : cleanList l₂)
    (he : pyDumps (.jarr (l₁.map .jstr)) = pyDumps (.jarr (l₂.map .jstr))) : l₁ = l₂ := by
  rw [pyDumps_names h1, pyDumps_names h2] at he
  have h3 : '[' :: charsOfNames l₁ ++ [']'] = '[' :: charsOfNames l₂ ++ [']'] :=
    congrArg String.data he
  injection h3 with _ h4
  exact charsOfNames_inj l₁ l₂ h1 h2 h4

theorem cleanList_sortStrings {l : List String} (h : cleanList l) : cleanList (sortStrings l) :=
  fun s hs => h s ((sortStrings_perm l).mem_iff.mp hs)

/-- Claim C5 counterexample: two snapshots whose single delivery names differ
only by internal whitespace get different fingerprints — the digest is
computed over the raw names, and the whitespace normalizer of the source is
never applied to them. -/
theorem c5_fingerprint_whitespace_cex :
    (detect_availability_and_deliveries ⟨some (.payload (.jobj [("props", .jobj [("lunchDay", .jobj
        [("deliveries", .jarr [.jobj [("isOpen", .jbool true),
          ("restaurantName", .jstr "Taco  Cabana")]])])])])), "", 0⟩).available = true ∧
    (detect_availability_and_deliveries ⟨some (.payload (.jobj [("props", .jobj [("lunchDay", .jobj
        [("deliveries", .jarr [.jobj [("isOpen", .jbool true),
          ("restaurantName", .jstr "Taco Cabana")]])])])])), "", 0⟩).available = true ∧
    dedupeSpaces "Taco  Cabana".data = "Taco Cabana".data ∧
    (detect_availability_and_deliveries ⟨some (.payload (.jobj [("props", .jobj [("lunchDay", .jobj
        [("deliveries", .jarr [.jobj [("isOpen", .jbool true),
          ("restaurantName", .jstr "Taco  Cabana")]])])])])), "", 0⟩).digest ≠
    (detect_availability_and_deliveries ⟨some (.payload (.jobj [("props", .jobj [("lunchDay", .jobj
        [("deliveries", .jarr [.jobj [("isOpen", .jbool true),
          ("restaurantName", .jstr "Taco Cabana")]])])])])), "", 0⟩).digest := by
  exact ⟨rfl, rfl, by decide, by decide⟩

/-- Claim C5 amended: the fingerprint is invariant under reordering of the
delivery list — permuted name lists give equal digests — and it equals the
hash of the serialized sorted name list; for names of printable ascii
without quote or backslash, that serialized input is equal exactly when the
sorted name lists are equal, so any change of the name set changes the hash
input.  It is not invariant under whitespace differences within names. -/
theorem c5_fingerprint_semantics :
    (∀ ns1 ns2 : List String, List.Perm ns1 ns2 →
      digestOfNames (ns1.map .jstr) = digestOfNames (ns2.map .jstr)) ∧
    (∀ ns : List String, digestOfNames (ns.map .jstr) =
      .ok (content_hash (pyDumps (.jarr ((sortStrings ns).map .jstr))))) ∧
    (∀ ns1 ns2 : List String, cleanList ns1 → cleanList ns2 →
      (pyDumps (.jarr ((sortStrings ns1).map .jstr)) =
         pyDumps (.jarr ((sortStrings ns2).map .jstr)) ↔
       sortStrings ns1 = sortStrings ns2)) := by
  refine ⟨?_, digestOfNames_strings, ?_⟩
  · intro ns1 ns2 h
    rw [digestOfNames_strings, digestOfNames_strings, sortStrings_eq_of_perm h]
  · intro ns1 ns2 h1 h2
    constructor
    · exact fun he => pyDumps_names_inj (cleanList_sortStrings h1) (cleanList_sortStrings h2) he
    · exact fun he => by rw [he]

/-- Claim C5 amended witness: permuted inputs share a digest, the digest is
the hash of the serialized sorted names, and equal sorted lists give the
equal serialized input. -/
theorem c5_fingerprint_semantics_witness :
    digestOfNames [JVal.jstr "b", JVal.jstr "a"] =
      digestOfNames [JVal.jstr "a", JVal.jstr "b"] ∧
    digestOfNames [JVal.jstr "a"] = .ok (content_hash (pyDumps (.jarr [JVal.jstr "a"]))) ∧
    pyDumps (.jarr ((sortStrings ["b", "a"]).map .jstr)) =
      pyDumps (.jarr ((sortStrings ["a", "b"]).map .jstr)) := by
  refine ⟨c5_fingerprint_semantics.1 ["b", "a"] ["a", "b"] (List.Perm.swap "a" "b" []), ?_, ?_⟩
  · exact (c5_fingerprint_semantics.2.1 ["a"]).trans rfl
  · exact (c5_fingerprint_semantics.2.2 ["b", "a"] ["a", "b"] (by unfold cleanList cleanStr cleanChar; decide)
      (by unfold cleanList cleanStr cleanChar; decide)).mpr rfl

/-! ### Characterizing one loop step and the whole per-date loop -/

theorem processDate_eq (env : RunEnv) (st : LoopState) (d : Nat)
    (hc : st.crashed = false)
    (hb : stepBenign (st.store (pathOf env d)) (checkDate env d) = true) :
    (processDate env st d).crashed = false ∧
    (processDate env st d).checked = st.checked ++ [d] ∧
    (processDate env st d).errors = st.errors ++ (errMsgOf (checkDate env d)).toList ∧
    (processDate env st d).newly =
      st.newly ++ (stepNewly (st.store (pathOf env d)) d (checkDate env d)).toList ∧
    (∀ p, (processDate env st d).store p =
      if p = pathOf env d then storeAfter (st.store (pathOf env d)) (checkDate env d)
      else st.store p) := by
  simp only [pathOf] at hb ⊢
  cases hr : checkDate env d with
  | failure msg =>
    refine ⟨by simp [processDate, hc, hr], by simp [processDate, hc, hr],
      by simp [processDate, hc, hr, errMsgOf], by simp [processDate, hc, hr, stepNewly], ?_⟩
    intro p
    by_cases hp : p = state_path_for (url_for env.cfg.baseURL d)
    · subst hp
      simp [processDate, hc, hr, storeAfter, stepSave]
    · simp [processDate, hc, hr, storeAfter, stepSave, hp]
  | success avail digest names items =>
    rw [hr] at hb
    simp only [stepBenign] at hb
    cases hg : getDict (prevValOf (st.store (state_path_for (url_for env.cfg.baseURL d)))) with
    | error e => rw [hg] at hb; cases hb
    | ok prevF =>
      rw [hg] at hb
      replace hb : (pySetOk ((dictGet prevF "names").getD (JVal.jarr [])) &&
        pySetOk (JVal.jarr names)) = true := hb
      obtain ⟨hX, hY⟩ := Bool.and_eq_true_iff.mp hb
      refine ⟨by simp [processDate, hc, hr, load_state, hg, hX, hY],
        by simp [processDate, hc, hr, load_state, hg, hX, hY],
        by simp [processDate, hc, hr, load_state, hg, hX, hY, errMsgOf], ?_, ?_⟩
      · by_cases hflag : (became_available (dictGet prevF "available") avail ||
            (avail && changed_check (dictGet prevF "digest") digest)) = true
        · simp [processDate, hc, hr, load_state, hg, hX, hY, stepNewly, hflag]
        · simp only [Bool.or_eq_true, Bool.and_eq_true, not_or, not_and] at hflag
          have hno : ¬(avail = true ∧ changed_check (dictGet prevF "digest") digest = true) :=
            fun h => hflag.2 h.1 h.2
          simp [processDate, hc, hr, load_state, hg, hX, hY, stepNewly, hflag, hno]
      · intro p
        by_cases hp : p = state_path_for (url_for env.cfg.baseURL d)
        · subst hp
          simp [processDate, hc, hr, load_state, hg, hX, hY, storeAfter, stepSave, save_state]
        · simp [processDate, hc, hr, load_state, hg, hX, hY, storeAfter, stepSave,
            save_state, hp]

theorem runLoop_spec (env : RunEnv) :
    ∀ (l : List Nat) (st : LoopState),
    st.crashed = false →
    (l.map (pathOf env)).Pairwise (· ≠ ·) →
    (∀ d ∈ l, stepBenign (st.store (pathOf env d)) (checkDate env d) = true) →
    (l.foldl (processDate env) st).crashed = false ∧
    (l.foldl (processDate env) st).checked = st.checked ++ l ∧
    (l.foldl (processDate env) st).errors =
      st.errors ++ l.filterMap (fun d => errMsgOf (checkDate env d)) ∧
    (l.foldl (processDate env) st).newly =
      st.newly ++ l.filterMap (fun d => stepNewly (st.store (pathOf env d)) d (checkDate env d)) ∧
    (∀ p, (∀ d ∈ l, p ≠ pathOf env d) → (l.foldl (processDate env) st).store p = st.store p) ∧
    (∀ d ∈ l, (l.foldl (processDate env) st).store (pathOf env d) =
      storeAfter (st.store (pathOf env d)) (checkDate env d)) := by
  intro l
  induction l with
  | nil =>
    intro st hc _ _
    simp [hc]
  | cons d l ih =>
    intro st hc hpw hb
    have hstep := processDate_eq env st d hc (hb d (by simp))
    obtain ⟨hs1, hs2, hs3, hs4, hs5⟩ := hstep
    have hpw' : (l.map (pathOf env)).Pairwise (· ≠ ·) := (List.pairwise_cons.mp hpw).2
    have hhead : ∀ e ∈ l, pathOf env d ≠ pathOf env e := by
      intro e he
      exact (List.pairwise_cons.mp hpw).1 (pathOf env e) (List.mem_map_of_mem _ he)
    have hstore_same : ∀ e ∈ l,
        (processDate env st d).store (pathOf env e) = st.store (pathOf env e) := by
      intro e he
      rw [hs5 (pathOf env e)]
      rw [if_neg (fun hcontra => hhead e he hcontra.symm)]
    have hb' : ∀ e ∈ l,
        stepBenign ((processDate env st d).store (pathOf env e)) (checkDate env e) = true := by
      intro e he
      rw [hstore_same e he]
      exact hb e (by simp [he])
    have := ih (processDate env st d) hs1 hpw' hb'
    obtain ⟨h1, h2, h3, h4, h5, h6⟩ := this
    simp only [List.foldl_cons]
    refine ⟨h1, ?_, ?_, ?_, ?_, ?_⟩
    · rw [h2, hs2, List.append_assoc]
      rfl
    · rw [h3, hs3, List.append_assoc]
      congr 1
      cases hr : errMsgOf (checkDate env d) <;> simp [List.filterMap_cons, hr]
    · rw [h4, hs4, List.append_assoc]
      congr 1
      have hrw : l.filterMap (fun e =>
          stepNewly ((processDate env st d).store (pathOf env e)) e (checkDate env e)) =
          l.filterMap (fun e => stepNewly (st.store (pathOf env e)) e (checkDate env e)) :=
        List.filterMap_congr (fun e he => by rw [hstore_same e he])
      rw [hrw] at h4 ⊢
      cases hr : stepNewly (st.store (pathOf env d)) d (checkDate env d) <;>
        simp [List.filterMap_cons, hr]
    · intro p hp
      rw [h5 p (fun e he => hp e (by simp [he]))]
      rw [hs5 p, if_neg (hp d (by simp))]
    · intro e he
      rcases List.mem_cons.mp he with rfl | he2
      · rw [h5 (pathOf env e) (fun u hu => hhead u hu), hs5 (pathOf env e), if_pos rfl]
      · rw [h6 e he2, hstore_same e he2]

theorem mainNormalMode_ok (env : RunEnv) (store0 : Store)
    (hw : (weekdaysWindow env.today env.cfg.lookaheadDays).isEmpty = false)
    (hauth : env.authOk = true)
    (hnc : ((weekdaysWindow env.today env.cfg.lookaheadDays).foldl (processDate env)
      ⟨store0, [], [], [], false⟩).crashed = false) :
    (mainNormalMode env store0).store =
      ((weekdaysWindow env.today env.cfg.lookaheadDays).foldl (processDate env)
        ⟨store0, [], [], [], false⟩).store ∧
    (mainNormalMode env store0).checked =
      ((weekdaysWindow env.today env.cfg.lookaheadDays).foldl (processDate env)
        ⟨store0, [], [], [], false⟩).checked ∧
    (mainNormalMode env store0).newly =
      ((weekdaysWindow env.today env.cfg.lookaheadDays).foldl (processDate env)
        ⟨store0, [], [], [], false⟩).newly ∧
    (mainNormalMode env store0).errors =
      ((weekdaysWindow env.today env.cfg.lookaheadDays).foldl (processDate env)
        ⟨store0, [], [], [], false⟩).errors ∧
    (env.notifyOk = true → (mainNormalMode env store0).crashed = false) := by
  simp only [mainNormalMode, hw, hauth, Bool.not_true, Bool.false_eq_true, if_false]
  by_cases hne : ((weekdaysWindow env.today env.cfg.lookaheadDays).foldl (processDate env)
      ⟨store0, [], [], [], false⟩).newly.isEmpty <;>
    by_cases hhb : env.cfg.sendHeartbeat <;>
      simp [hne, hhb, hnc]

/-- Claim C7: a per-date failure — a navigation timeout or any other
exception while loading one date — is non-fatal: the failing date is
skipped, its message is recorded in the error list, and every other date
of the window is still checked, diffed and persisted, with the run ending
uncrashed. -/
theorem c7_per_date_failures_nonfatal (env : RunEnv) (store0 : Store)
    (hauth : env.authOk = true)
    (hpw : ((weekdaysWindow env.today env.cfg.lookaheadDays).map (pathOf env)).Pairwise (· ≠ ·))
    (hb : ∀ d ∈ weekdaysWindow env.today env.cfg.lookaheadDays,
      stepBenign (store0 (pathOf env d)) (checkDate env d) = true)
    (hnotify : env.notifyOk = true) :
    (mainNormalMode env store0).crashed = false ∧
    (mainNormalMode env store0).checked = weekdaysWindow env.today env.cfg.lookaheadDays ∧
    (mainNormalMode env store0).errors =
      (weekdaysWindow env.today env.cfg.lookaheadDays).filterMap
        (fun d => errMsgOf (checkDate env d)) ∧
    (∀ d ∈ weekdaysWindow env.today env.cfg.lookaheadDays,
      (mainNormalMode env store0).store (pathOf env d) =
        storeAfter (store0 (pathOf env d)) (checkDate env d)) ∧
    (mainNormalMode env store0).newly =
      (weekdaysWindow env.today env.cfg.lookaheadDays).filterMap
        (fun d => stepNewly (store0 (pathOf env d)) d (checkDate env d)) := by
  cases hw : (weekdaysWindow env.today env.cfg.lookaheadDays).isEmpty with
  | true =>
    have hwnil : weekdaysWindow env.today env.cfg.lookaheadDays = [] := by
      simpa using hw
    simp [mainNormalMode, hw, hwnil]
  | false =>
    have hrun := runLoop_spec env (weekdaysWindow env.today env.cfg.lookaheadDays)
      ⟨store0, [], [], [], false⟩ rfl hpw hb
    obtain ⟨h1, h2, h3, h4, h5, h6⟩ := hrun
    obtain ⟨b1, b2, b3, b4, b5⟩ := mainNormalMode_ok env store0 hw hauth h1
    refine ⟨b5 hnotify, ?_, ?_, ?_, ?_⟩
    · rw [b2, h2]; rfl
    · rw [b4, h3]; rfl
    · intro d hd; rw [b1, h6 d hd]
    · rw [b3, h4]; rfl

/-- Claim C7 witness: a five-weekday window with one timed-out date still
checks all five dates, records exactly the one error, and finishes without
crashing. -/
theorem c7_per_date_failures_nonfatal_witness :
    (mainNormalMode
      ⟨⟨"https://austin.lunchdrop.com/app", 7, false⟩, 739536, true, true,
        fun d => if d = 739538 then .timeoutErr else .loaded ⟨some (.payload (.jobj
          [("props", .jobj [("lunchDay", .jobj [("deliveries", .jarr [.jobj
            [("isOpen", .jbool true), ("restaurantName", .jstr "Casa")]])])])])), "", 0⟩⟩
      (fun _ => none)).crashed = false ∧
    (mainNormalMode
      ⟨⟨"https://austin.lunchdrop.com/app", 7, false⟩, 739536, true, true,
        fun d => if d = 739538 then .timeoutErr else .loaded ⟨some (.payload (.jobj
          [("props", .jobj [("lunchDay", .jobj [("deliveries", .jarr [.jobj
            [("isOpen", .jbool true), ("restaurantName", .jstr "Casa")]])])])])), "", 0⟩⟩
      (fun _ => none)).checked = [739537, 739538, 739539, 739540, 739541] ∧
    (mainNormalMode
      ⟨⟨"https://austin.lunchdrop.com/app", 7, false⟩, 739536, true, true,
        fun d => if d = 739538 then .timeoutErr else .loaded ⟨some (.payload (.jobj
          [("props", .jobj [("lunchDay", .jobj [("deliveries", .jarr [.jobj
            [("isOpen", .jbool true), ("restaurantName", .jstr "Casa")]])])])])), "", 0⟩⟩
      (fun _ => none)).errors =
        ["Timeout loading https://austin.lunchdrop.com/app/2025-10-14"] := by
  have h := c7_per_date_failures_nonfatal
    ⟨⟨"https://austin.lunchdrop.com/app", 7, false⟩, 739536, true, true,
      fun d => if d = 739538 then .timeoutErr else .loaded ⟨some (.payload (.jobj
        [("props", .jobj [("lunchDay", .jobj [("deliveries", .jarr [.jobj
          [("isOpen", .jbool true), ("restaurantName", .jstr "Casa")]])])])])), "", 0⟩⟩
    (fun _ => none) rfl (by decide) (by decide) rfl
  exact ⟨h.1, h.2.1.trans (by decide), h.2.2.1.trans (by decide)⟩

/-- Claim C9: in change mode a date whose check fails leaves its stored
state exactly as it was before the run, while a successful check
overwrites it with the new snapshot whether or not a change was
flagged. -/
theorem c9_persist_on_success_only (env : RunEnv) (store0 : Store)
    (hauth : env.authOk = true)
    (hpw : ((weekdaysWindow env.today env.cfg.lookaheadDays).map (pathOf env)).Pairwise (· ≠ ·))
    (hb : ∀ d ∈ weekdaysWindow env.today env.cfg.lookaheadDays,
      stepBenign (store0 (pathOf env d)) (checkDate env d) = true)
    (d : Nat) (hd : d ∈ weekdaysWindow env.today env.cfg.lookaheadDays) :
    (∀ msg, checkDate env d = .failure msg →
      (mainNormalMode env store0).store (pathOf env d) = store0 (pathOf env d)) ∧
    (∀ avail digest names items, checkDate env d = .success avail digest names items →
      (mainNormalMode env store0).store (pathOf env d) =
        some (snapJson avail digest names items)) := by
  have hw : (weekdaysWindow env.today env.cfg.lookaheadDays).isEmpty = false := by
    cases hq : (weekdaysWindow env.today env.cfg.lookaheadDays).isEmpty with
    | false => rfl
    | true =>
      rw [List.isEmpty_iff.mp hq] at hd
      cases hd
  have hrun := runLoop_spec env (weekdaysWindow env.today env.cfg.lookaheadDays)
    ⟨store0, [], [], [], false⟩ rfl hpw hb
  obtain ⟨h1, _, _, _, _, h6⟩ := hrun
  obtain ⟨b1, _, _, _, _⟩ := mainNormalMode_ok env store0 hw hauth h1
  constructor
  · intro msg hr
    rw [b1, h6 d hd, hr]
    rfl
  · intro avail digest names items hr
    rw [b1, h6 d hd, hr]
    rfl

/-- Claim C9 witness: with every key holding a previous snapshot, the
timed-out date keeps its old entry and a successful date gets its new
snapshot written. -/
theorem c9_persist_on_success_only_witness :
    (mainNormalMode
      ⟨⟨"https://austin.lunchdrop.com/app", 7, false⟩, 739536, true, true,
        fun d => if d = 739538 then .timeoutErr else .loaded ⟨some (.payload (.jobj
          [("props", .jobj [("lunchDay", .jobj [("deliveries", .jarr [.jobj
            [("isOpen", .jbool true), ("restaurantName", .jstr "Casa")]])])])])), "", 0⟩⟩
      (fun _ => some (snapJson true (content_hash "[]") [] []))).store
      (pathOf
        ⟨⟨"https://austin.lunchdrop.com/app", 7, false⟩, 739536, true, true,
          fun d => if d = 739538 then .timeoutErr else .loaded ⟨some (.payload (.jobj
            [("props", .jobj [("lunchDay", .jobj [("deliveries", .jarr [.jobj
              [("isOpen", .jbool true), ("restaurantName", .jstr "Casa")]])])])])), "", 0⟩⟩
        739538) = some (snapJson true (content_hash "[]") [] []) ∧
    (mainNormalMode
      ⟨⟨"https://austin.lunchdrop.com/app", 7, false⟩, 739536, true, true,
        fun d => if d = 739538 then .timeoutErr else .loaded ⟨some (.payload (.jobj
          [("props", .jobj [("lunchDay", .jobj [("deliveries", .jarr [.jobj
            [("isOpen", .jbool true), ("restaurantName", .jstr "Casa")]])])])])), "", 0⟩⟩
      (fun _ => some (snapJson true (content_hash "[]") [] []))).store
      (pathOf
        ⟨⟨"https://austin.lunchdrop.com/app", 7, false⟩, 739536, true, true,
          fun d => if d = 739538 then .timeoutErr else .loaded ⟨some (.payload (.jobj
            [("props", .jobj [("lunchDay", .jobj [("deliveries", .jarr [.jobj
              [("isOpen", .jbool true), ("restaurantName", .jstr "Casa")]])])])])), "", 0⟩⟩
        739537) =
      some (snapJson true (content_hash "[\"Casa\"]") [JVal.jstr "Casa"]
        [⟨JVal.jstr "Casa", JVal.jstr ""⟩]) := by
  have h := c9_persist_on_success_only
    ⟨⟨"https://austin.lunchdrop.com/app", 7, false⟩, 739536, true, true,
      fun d => if d = 739538 then .timeoutErr else .loaded ⟨some (.payload (.jobj
        [("props", .jobj [("lunchDay", .jobj [("deliveries", .jarr [.jobj
          [("isOpen", .jbool true), ("restaurantName", .jstr "Casa")]])])])])), "", 0⟩⟩
    (fun _ => some (snapJson true (content_hash "[]") [] []))
    rfl (by decide) (by decide)
  exact ⟨(h 739538 (by decide)).1 _ rfl,
    (h 739537 (by decide)).2 true (content_hash "[\"Casa\"]") [JVal.jstr "Casa"]
      [⟨JVal.jstr "Casa", JVal.jstr ""⟩] rfl⟩

/-- Claim C6 counterexample: authentication succeeds, every date check
merely times out, yet the run still aborts — the heartbeat notification
fails to deliver, notify_slack raises, and nothing in main catches it.  An
error condition other than authentication therefore aborts the run. -/
theorem c6_notify_failure_cex :
    (mainNormalMode ⟨⟨"https://x.example/app", 1, true⟩, 739536, true, false,
      fun _ => .timeoutErr⟩ (fun _ => none)).crashed = true ∧
    (⟨⟨"https://x.example/app", 1, true⟩, 739536, true, false,
      fun _ => .timeoutErr⟩ : RunEnv).authOk = true := by
  exact ⟨rfl, rfl⟩

/-- Claim C6 amended: an authentication failure is fatal: with a nonempty
window, no per-date check runs, exactly one notification describing the
failure is attempted, stored state is untouched and the run ends right
after the attempt.  Per-date check failures do not abort the run — with
readable stored state and working notification delivery the loop completes
uncrashed — but a failed notification delivery itself does propagate. -/
theorem c6_auth_failure_fatal (env : RunEnv) (store0 : Store)
    (hw : weekdaysWindow env.today env.cfg.lookaheadDays ≠ []) :
    (env.authOk = false →
      (mainNormalMode env store0).checked = [] ∧
      (mainNormalMode env store0).errors = [] ∧
      (mainNormalMode env store0).newly = [] ∧
      (mainNormalMode env store0).notifications = [.loginFailed] ∧
      (mainNormalMode env store0).store = store0) ∧
    (env.authOk = true → env.notifyOk = true →
      ((weekdaysWindow env.today env.cfg.lookaheadDays).map (pathOf env)).Pairwise (· ≠ ·) →
      (∀ d ∈ weekdaysWindow env.today env.cfg.lookaheadDays,
        stepBenign (store0 (pathOf env d)) (checkDate env d) = true) →
      (mainNormalMode env store0).crashed = false ∧
      (mainNormalMode env store0).checked = weekdaysWindow env.today env.cfg.lookaheadDays) := by
  have hwb : (weekdaysWindow env.today env.cfg.lookaheadDays).isEmpty = false := by
    cases hq : (weekdaysWindow env.today env.cfg.lookaheadDays).isEmpty with
    | false => rfl
    | true => exact absurd (List.isEmpty_iff.mp hq) hw
  constructor
  · intro hna
    simp [mainNormalMode, hwb, hna]
  · intro hauth hnotify hpw hb
    have hrun := runLoop_spec env (weekdaysWindow env.today env.cfg.lookaheadDays)
      ⟨store0, [], [], [], false⟩ rfl hpw hb
    obtain ⟨h1, h2, _, _, _, _⟩ := hrun
    obtain ⟨_, b2, _, _, b5⟩ := mainNormalMode_ok env store0 hwb hauth h1
    refine ⟨b5 hnotify, ?_⟩
    rw [b2, h2]
    rfl

/-- Claim C6 amended witness: a login failure over a one-day window checks
nothing, attempts exactly the login-failure notification and leaves the
store alone; the same window with login and delivery working completes
uncrashed. -/
theorem c6_auth_failure_fatal_witness :
    ((mainNormalMode ⟨⟨"https://x.example/app", 1, false⟩, 739536, false, true,
        fun _ => .timeoutErr⟩ (fun _ => none)).checked = [] ∧
      (mainNormalMode ⟨⟨"https://x.example/app", 1, false⟩, 739536, false, true,
        fun _ => .timeoutErr⟩ (fun _ => none)).errors = [] ∧
      (mainNormalMode ⟨⟨"https://x.example/app", 1, false⟩, 739536, false, true,
        fun _ => .timeoutErr⟩ (fun _ => none)).newly = [] ∧
      (mainNormalMode ⟨⟨"https://x.example/app", 1, false⟩, 739536, false, true,
        fun _ => .timeoutErr⟩ (fun _ => none)).notifications = [.loginFailed] ∧
      (mainNormalMode ⟨⟨"https://x.example/app", 1, false⟩, 739536, false, true,
        fun _ => .timeoutErr⟩ (fun _ => none)).store = (fun _ => none)) ∧
    ((mainNormalMode ⟨⟨"https://x.example/app", 1, false⟩, 739536, true, true,
        fun _ => .timeoutErr⟩ (fun _ => none)).crashed = false) := by
  refine ⟨(c6_auth_failure_fatal
      ⟨⟨"https://x.example/app", 1, false⟩, 739536, false, true, fun _ => .timeoutErr⟩
      (fun _ => none) (by decide)).1 rfl, ?_⟩
  exact ((c6_auth_failure_fatal
      ⟨⟨"https://x.example/app", 1, false⟩, 739536, true, true, fun _ => .timeoutErr⟩
      (fun _ => none) (by decide)).2 rfl rfl (by decide) (by decide)).1

/-! ### Evaluating the extractor body on a well-shaped payload -/

theorem mapM_reduceOption_mem {α β : Type} (f : α → Except Unit (Option β)) :
    ∀ (l : List α) (ys : List (Option β)), l.mapM f = .ok ys →
      ∀ y : β, y ∈ ys.reduceOption ↔ ∃ d ∈ l, f d = .ok (some y) := by
  intro l
  induction l with
  | nil =>
    intro ys h y
    rw [List.mapM_nil] at h
    have h2 : ([] : List (Option β)) = ys := by
      injection h
    subst h2
    simp [List.reduceOption]
  | cons x xs ih =>
    intro ys h y
    rw [List.mapM_cons] at h
    cases hf : f x with
    | error e =>
      rw [hf] at h
      simp [Bind.bind, Except.bind] at h
    | ok o =>
      rw [hf] at h
      cases hm : xs.mapM f with
      | error e =>
        rw [hm] at h
        simp [Bind.bind, Except.bind] at h
      | ok rest =>
        rw [hm] at h
        simp only [Bind.bind, Except.bind, pure, Except.pure] at h
        have h2 : o :: rest = ys := by
          injection h
        subst h2
        cases o with
        | none =>
          simp only [List.reduceOption_cons_of_none]
          rw [ih rest hm y]
          constructor
          · rintro ⟨d, hd, hfd⟩
            exact ⟨d, by simp [hd], hfd⟩
          · rintro ⟨d, hd, hfd⟩
            have hd2 : d = x ∨ d ∈ xs := by simpa using hd
            rcases hd2 with rfl | hd2
            · rw [hf] at hfd
              injection hfd with hfd2
              cases hfd2
            · exact ⟨d, hd2, hfd⟩
        | some b =>
          simp only [List.reduceOption_cons_of_some, List.mem_cons]
          rw [ih rest hm y]
          constructor
          · rintro (rfl | ⟨d, hd, hfd⟩)
            · exact ⟨x, by simp, hf⟩
            · exact ⟨d, by simp [hd], hfd⟩
          · rintro ⟨d, hd, hfd⟩
            have hd2 : d = x ∨ d ∈ xs := by simpa using hd
            rcases hd2 with rfl | hd2
            · rw [hf] at hfd
              injection hfd with hfd2
              injection hfd2 with hfd3
              exact Or.inl hfd3.symm
            · exact Or.inr ⟨d, hd2, hfd⟩

theorem detectBody_eval (dataF propsF ldF : List (String × JVal)) (ds : List JVal)
    (dsF : List (List (String × JVal))) (infos : List (Option ItemInfo)) (dg : String)
    (hprops : dictGet dataF "props" = some (.jobj propsF))
    (hld : dictGet propsF "lunchDay" = some (.jobj ldF))
    (hds : dictGet ldF "deliveries" = some (.jarr ds))
    (hne : ds ≠ [])
    (hdsF : ds.mapM getDict = .ok dsF)
    (hinfos : (dsF.filter eligible).mapM infoOf = .ok infos)
    (hdg : digestOfNames ((infos.reduceOption).map (fun it => it.name)) = .ok dg) :
    detectBody (.jobj dataF) =
      .ok ⟨!(dsF.filter eligible).isEmpty, infos.reduceOption, dg⟩ := by
  have htr : truthy (.jarr ds) = true := by
    cases ds with
    | nil => exact absurd rfl hne
    | cons a l => rfl
  simp only [detectBody, getDict, hprops, hld, hds, Option.getD, Bind.bind, Except.bind,
    htr, if_true, asArr, hdsF, hinfos, hdg, pure, Except.pure]

/-- Claim C10: the item list holds exactly the eligible deliveries — open,
not cancelled, orderable — that carry a truthy restaurant name, while
availability is computed over all eligible deliveries; consequently a
snapshot can be available with an empty item list, as the concrete payload
whose only eligible delivery has no name shows. -/
theorem c10_availability_vs_items
    (text : String) (cta : Nat) (dataF propsF ldF : List (String × JVal)) (ds : List JVal)
    (dsF : List (List (String × JVal))) (infos : List (Option ItemInfo)) (dg : String)
    (hprops : dictGet dataF "props" = some (.jobj propsF))
    (hld : dictGet propsF "lunchDay" = some (.jobj ldF))
    (hds : dictGet ldF "deliveries" = some (.jarr ds))
    (hne : ds ≠ [])
    (hdsF : ds.mapM getDict = .ok dsF)
    (hinfos : (dsF.filter eligible).mapM infoOf = .ok infos)
    (hdg : digestOfNames ((infos.reduceOption).map (fun it => it.name)) = .ok dg) :
    ((detect_availability_and_deliveries
        ⟨some (.payload (.jobj dataF)), text, cta⟩).available = true ↔
      ∃ dv ∈ dsF, eligible dv = true) ∧
    (∀ it, it ∈ (detect_availability_and_deliveries
        ⟨some (.payload (.jobj dataF)), text, cta⟩).items ↔
      ∃ dv ∈ dsF, eligible dv = true ∧ infoOf dv = .ok (some it)) ∧
    (detect_availability_and_deliveries ⟨some (.payload (.jobj [("props", .jobj [("lunchDay",
      .jobj [("deliveries", .jarr [.jobj [("isOpen", .jbool true)]])])])])),
      "", 0⟩).available = true ∧
    (detect_availability_and_deliveries ⟨some (.payload (.jobj [("props", .jobj [("lunchDay",
      .jobj [("deliveries", .jarr [.jobj [("isOpen", .jbool true)]])])])])),
      "", 0⟩).items = [] := by
  have hev := detectBody_eval dataF propsF ldF ds dsF infos dg
    hprops hld hds hne hdsF hinfos hdg
  have hdet : detect_availability_and_deliveries ⟨some (.payload (.jobj dataF)), text, cta⟩ =
      ⟨!(dsF.filter eligible).isEmpty, infos.reduceOption, dg⟩ := by
    simp [detect_availability_and_deliveries, detectCore, hev]
  refine ⟨?_, ?_, rfl, rfl⟩
  · rw [hdet]
    constructor
    · intro h
      have hfe : dsF.filter eligible ≠ [] := by
        intro hnil
        rw [hnil] at h
        cases h
      obtain ⟨dv, hdv⟩ := List.exists_mem_of_ne_nil _ hfe
      have := List.mem_filter.mp hdv
      exact ⟨dv, this.1, this.2⟩
    · rintro ⟨dv, hdv, hel⟩
      have hmem : dv ∈ dsF.filter eligible := List.mem_filter.mpr ⟨hdv, hel⟩
      cases hfl : dsF.filter eligible with
      | nil => rw [hfl] at hmem; cases hmem
      | cons a l => simp [hfl]
  · intro it
    rw [hdet]
    show it ∈ infos.reduceOption ↔ _
    rw [mapM_reduceOption_mem infoOf _ _ hinfos it]
    constructor
    · rintro ⟨dv, hdv, hfd⟩
      have := List.mem_filter.mp hdv
      exact ⟨dv, this.1, this.2, hfd⟩
    · rintro ⟨dv, hdv, hel, hfd⟩
      exact ⟨dv, List.mem_filter.mpr ⟨hdv, hel⟩, hfd⟩

/-- Claim C10 witness: a payload with one eligible named delivery and one
closed delivery is available with that single item, and the nameless
eligible payload is available with no items. -/
theorem c10_availability_vs_items_witness :
    (detect_availability_and_deliveries ⟨some (.payload (.jobj [("props", .jobj [("lunchDay",
      .jobj [("deliveries", .jarr [.jobj [("isOpen", .jbool true),
        ("restaurantName", .jstr "Casa")], .jobj [("isOpen", .jbool false)]])])])])),
      "", 0⟩).available = true ∧
    (⟨JVal.jstr "Casa", JVal.jstr ""⟩ : ItemInfo) ∈
      (detect_availability_and_deliveries ⟨some (.payload (.jobj [("props", .jobj [("lunchDay",
        .jobj [("deliveries", .jarr [.jobj [("isOpen", .jbool true),
          ("restaurantName", .jstr "Casa")], .jobj [("isOpen", .jbool false)]])])])])),
        "", 0⟩).items ∧
    (detect_availability_and_deliveries ⟨some (.payload (.jobj [("props", .jobj [("lunchDay",
      .jobj [("deliveries", .jarr [.jobj [("isOpen", .jbool true)]])])])])),
      "", 0⟩).available = true ∧
    (detect_availability_and_deliveries ⟨some (.payload (.jobj [("props", .jobj [("lunchDay",
      .jobj [("deliveries", .jarr [.jobj [("isOpen", .jbool true)]])])])])),
      "", 0⟩).items = [] := by
  have h := c10_availability_vs_items "" 0
    [("props", .jobj [("lunchDay", .jobj [("deliveries", .jarr [.jobj [("isOpen", .jbool true),
      ("restaurantName", .jstr "Casa")], .jobj [("isOpen", .jbool false)]])])])]
    [("lunchDay", .jobj [("deliveries", .jarr [.jobj [("isOpen", .jbool true),
      ("restaurantName", .jstr "Casa")], .jobj [("isOpen", .jbool false)]])])]
    [("deliveries", .jarr [.jobj [("isOpen", .jbool true),
      ("restaurantName", .jstr "Casa")], .jobj [("isOpen", .jbool false)]])]
    [.jobj [("isOpen", .jbool true), ("restaurantName", .jstr "Casa")],
      .jobj [("isOpen", .jbool false)]]
    [[("isOpen", .jbool true), ("restaurantName", .jstr "Casa")], [("isOpen", .jbool false)]]
    [some ⟨JVal.jstr "Casa", JVal.jstr ""⟩] (content_hash "[\"Casa\"]")
    rfl rfl rfl (List.cons_ne_nil _ _) rfl rfl rfl
  refine ⟨h.1.mpr ⟨[("isOpen", .jbool true), ("restaurantName", .jstr "Casa")],
      List.mem_cons_self _ _, rfl⟩,
    (h.2.1 ⟨JVal.jstr "Casa", JVal.jstr ""⟩).mpr
      ⟨[("isOpen", .jbool true), ("restaurantName", .jstr "Casa")],
        List.mem_cons_self _ _, rfl, rfl⟩,
    h.2.2.1, h.2.2.2⟩

end Lunchdrop
